import Mathlib

/-!
Verification of the loan chaincode (src/chaincode/loan_chaincode.go).

The chaincode's four operations (ApplyForLoan, ApproveLoan, MakeRepayment,
CheckLoanBalance) are embedded as pure functions over a key-value store
`String → Option Loan`, mirroring the world state accessed through
GetState/PutState.  Statuses are plain strings, as in the source.  Each Go
early-return error site is mapped to a typed error constructor, carrying
the source's message where the message matters.

Monetary amounts are `float64` in the Go source but are embedded here as
exact rationals — the value semantics the specification mandates (§7).
This is a deliberate idealization and it erases two aspects of the source:
IEEE-754 rounding (float64 subtraction can round, e.g. 1e16 - 1 evaluates
to 1e16, so the source can record a repayment while leaving the balance
unchanged) and the non-finite values NaN/Inf (which pass the source's
validation comparisons — NaN compared with anything is false — and then
make `json.Marshal` fail).  Control flow, check order and frame effects
are modelled faithfully; properties that hinge on exact arithmetic or on
non-finite inputs hold of this model, and of the spec's mandated
representation, without holding of the float64 program.
-/

/-- The `Loan` struct of the source, fields in source order.  The four
float64 amount fields are modelled as exact rationals; see the header. -/
structure Loan where
  LoanID        : String
  ApplicantName : String
  LoanAmount    : ℚ
  TermMonths    : Int
  InterestRate  : ℚ
  Outstanding   : ℚ
  Status        : String
  Repayments    : List ℚ
deriving DecidableEq, Repr

/-- Typed error outcomes; each corresponds to one `fmt.Errorf` site of the
source (the specification's error taxonomy, §7). -/
inductive LoanErr where
  | InvalidArgument (msg : String)
  | AlreadyExists
  | NotFound
  | InvalidState
  | ExceedsBalance
deriving DecidableEq, Repr

/-- The world state: each key holds at most one marshalled loan. -/
def Store := String → Option Loan

/-- The empty world state. -/
def Store.empty : Store := fun _ => none

/-- `PutState`: store `loan` under `key`, leaving other keys untouched. -/
def putState (st : Store) (key : String) (loan : Loan) : Store :=
  fun k => if k = key then some loan else st k

/-- `ApplyForLoan` (source lines 24-75): validate the arguments, reject a
duplicate key, otherwise create the record with `Status = "APPLIED"`,
`Outstanding = loanAmount` and empty `Repayments`.  The `json.Marshal`
error return (source lines 69-71) is not modelled: over exact rationals it
is unreachable, while in the source it is live exactly at the non-finite
float64 inputs NaN and Inf, which also slip through the `loanAmount <= 0`
and `interestRate < 0` comparisons. -/
def ApplyForLoan (st : Store) (loanID applicantName : String)
    (loanAmount : ℚ) (termMonths : Int) (interestRate : ℚ) :
    Except LoanErr Store :=
  if loanID = "" then
    .error (.InvalidArgument "loan ID cannot be empty")
  else if applicantName = "" then
    .error (.InvalidArgument "applicant name cannot be empty")
  else if loanAmount ≤ 0 then
    .error (.InvalidArgument "loan amount must be positive")
  else if termMonths ≤ 0 then
    .error (.InvalidArgument "loan term must be positive")
  else if interestRate < 0 then
    .error (.InvalidArgument "interest rate cannot be negative")
  else
    match st loanID with
    | some _ => .error .AlreadyExists
    | none =>
        .ok (putState st loanID
          { LoanID := loanID
            ApplicantName := applicantName
            LoanAmount := loanAmount
            TermMonths := termMonths
            InterestRate := interestRate
            Outstanding := loanAmount
            Status := "APPLIED"
            Repayments := [] })

/-- `ApproveLoan` (source lines 77-114): validate the decision string first,
then require an existing record in `"APPLIED"` status and set its status. -/
def ApproveLoan (st : Store) (loanID status : String) : Except LoanErr Store :=
  if status ≠ "APPROVED" ∧ status ≠ "REJECTED" then
    .error (.InvalidArgument "invalid status, must be APPROVED or REJECTED")
  else
    match st loanID with
    | none => .error .NotFound
    | some loan =>
        if loan.Status ≠ "APPLIED" then
          .error .InvalidState
        else
          .ok (putState st loanID { loan with Status := status })

/-- `MakeRepayment` (source lines 116-164): validate the amount, require an
existing `"APPROVED"` record, reject amounts above `Outstanding`, then
decrement `Outstanding`, append to `Repayments`, and mark `"PAID"` when the
new outstanding balance is `≤ 0`.  The decrement (source line 149,
`loan.Outstanding -= repaymentAmount`) is float64 subtraction in the
source and exact subtraction here; see the header. -/
def MakeRepayment (st : Store) (loanID : String) (repaymentAmount : ℚ) :
    Except LoanErr Store :=
  if repaymentAmount ≤ 0 then
    .error (.InvalidArgument "repayment amount must be positive")
  else
    match st loanID with
    | none => .error .NotFound
    | some loan =>
        if loan.Status ≠ "APPROVED" then
          .error .InvalidState
        else if repaymentAmount > loan.Outstanding then
          .error .ExceedsBalance
        else
          let loan1 : Loan :=
            { loan with
                Outstanding := loan.Outstanding - repaymentAmount
                Repayments := loan.Repayments ++ [repaymentAmount] }
          let loan2 : Loan :=
            if loan1.Outstanding ≤ 0 then { loan1 with Status := "PAID" } else loan1
          .ok (putState st loanID loan2)

/-- `CheckLoanBalance` (source lines 166-184): a single read, no write
(`PutState` does not occur in its body, so the embedding returns no store). -/
def CheckLoanBalance (st : Store) (loanID : String) : Except LoanErr Loan :=
  match st loanID with
  | none => .error .NotFound
  | some loan => .ok loan

/-- The three mutating operations, for reasoning about call sequences. -/
inductive Op where
  | applyLoan (loanID applicantName : String)
      (loanAmount : ℚ) (termMonths : Int) (interestRate : ℚ)
  | decideLoan (loanID status : String)
  | repayLoan (loanID : String) (amount : ℚ)

/-- Run one mutating operation against the store. -/
def runOp (st : Store) : Op → Except LoanErr Store
  | .applyLoan lid nm amt tm ir => ApplyForLoan st lid nm amt tm ir
  | .decideLoan lid s => ApproveLoan st lid s
  | .repayLoan lid amt => MakeRepayment st lid amt

/-- Run one operation; a rejected operation writes nothing (every error path
of the source returns before `PutState`). -/
def runStep (st : Store) (op : Op) : Store :=
  match runOp st op with
  | .ok st1 => st1
  | .error _ => st

/-- Run a sequence of operations; rejected operations leave the state as is. -/
def runOps (st : Store) : List Op → Store
  | [] => st
  | op :: ops => runOps (runStep st op) ops

/-- Record-level invariant: repayments plus outstanding recover the
principal, outstanding is non-negative, and outstanding is zero exactly when
the status is `"PAID"`. -/
def LoanInv (loan : Loan) : Prop :=
  loan.Repayments.sum + loan.Outstanding = loan.LoanAmount ∧
  0 ≤ loan.Outstanding ∧
  (loan.Outstanding = 0 ↔ loan.Status = "PAID")

/-- Store-level invariant: every stored record satisfies `LoanInv`. -/
def StoreInv (st : Store) : Prop :=
  ∀ k loan, st k = some loan → LoanInv loan

/-- Outcome of one executor call: a committed new store, a rejection by the
lifecycle operation itself, or a retry budget exhausted by conflicts. -/
inductive ExecResult where
  | committed (st : Store)
  | opError (e : LoanErr)
  | contention

/-- Modelled from the spec: the Transaction Executor of spec §4.3 is not
under src/ — the chaincode delegates version checking to the Fabric runtime
and contains no retry loop — so the read-validate-write loop is modelled
from the spec's words.  `envSt i` is the store observed when attempt `i`
reads, and `conflict i` records whether a concurrent writer updated the key
between attempt `i`'s read and its conditional write (a version mismatch).
An attempt whose conditional write conflicts is retried with a fresh read;
when the bounded attempt budget is exhausted the executor reports
contention.  A lifecycle-level rejection is returned as is, never retried. -/
def execTx (envSt : Nat → Store) (conflict : Nat → Bool) (op : Op) :
    Nat → Nat → ExecResult
  | _, 0 => .contention
  | i, n + 1 =>
      match runOp (envSt i) op with
      | .error e => .opError e
      | .ok st1 =>
          if conflict i then execTx envSt conflict op (i + 1) n
          else .committed st1

/-- A concrete applied record, used to instantiate the theorems below. -/
def demoApplied : Loan :=
  { LoanID := "L1"
    ApplicantName := "Jane Doe"
    LoanAmount := 5000
    TermMonths := 12
    InterestRate := 11 / 2
    Outstanding := 5000
    Status := "APPLIED"
    Repayments := [] }

/-- The same record once approved. -/
def demoApproved : Loan := { demoApplied with Status := "APPROVED" }

/-- The same record after a repayment of 2000. -/
def demoPartPaid : Loan :=
  { demoApplied with
      Status := "APPROVED"
      Outstanding := 3000
      Repayments := [2000] }

/-- The same record fully repaid by a single repayment of 5000. -/
def demoPaid : Loan :=
  { demoApplied with
      Status := "PAID"
      Outstanding := 0
      Repayments := [5000] }

/-- A store holding only the applied record. -/
def demoStore1 : Store := putState Store.empty "L1" demoApplied

/-- A store holding only the approved record. -/
def demoStore2 : Store := putState Store.empty "L1" demoApproved

/-- The spec §8 scenario prefix: apply, approve, repay 2000. -/
def demoOps : List Op :=
  [Op.applyLoan "L1" "Jane Doe" 5000 12 (11 / 2),
   Op.decideLoan "L1" "APPROVED",
   Op.repayLoan "L1" 2000]

theorem putState_same (st : Store) (k : String) (loan : Loan) :
    putState st k loan k = some loan := by
  simp [putState]

theorem putState_other (st : Store) (k k1 : String) (loan : Loan) (h : k1 ≠ k) :
    putState st k loan k1 = st k1 := by
  simp [putState, h]

theorem store_empty_apply (k : String) : Store.empty k = none := rfl

theorem putState_putState (st : Store) (k : String) (a b : Loan) :
    putState (putState st k a) k b = putState st k b := by
  funext k1
  by_cases h : k1 = k <;> simp [putState, h]

theorem storeInv_empty : StoreInv Store.empty := by
  intro k loan h
  simp [Store.empty] at h

theorem runStep_eq_of_error (st : Store) (op : Op) (e : LoanErr)
    (h : runOp st op = .error e) : runStep st op = st := by
  simp [runStep, h]

theorem runStep_eq_of_ok (st : Store) (op : Op) (st1 : Store)
    (h : runOp st op = .ok st1) : runStep st op = st1 := by
  simp [runStep, h]

theorem applyDemo_eval :
    ApplyForLoan Store.empty "L1" "Jane Doe" 5000 12 (11 / 2) =
      .ok demoStore1 := by
  simp [ApplyForLoan, store_empty_apply, demoStore1, demoApplied]
  norm_num

theorem approveDemo_eval :
    ApproveLoan demoStore1 "L1" "APPROVED" = .ok demoStore2 := by
  simp [ApproveLoan, demoStore1, demoStore2, putState_same, putState_putState,
        demoApplied, demoApproved]

theorem repayDemo_eval :
    MakeRepayment demoStore2 "L1" 2000 =
      .ok (putState demoStore2 "L1" demoPartPaid) := by
  simp [MakeRepayment, demoStore2, putState_same, putState_putState,
        demoApproved, demoApplied, demoPartPaid]
  norm_num

theorem repayFullDemo_eval :
    MakeRepayment demoStore2 "L1" 5000 =
      .ok (putState demoStore2 "L1" demoPaid) := by
  simp [MakeRepayment, demoStore2, putState_same, putState_putState,
        demoApproved, demoApplied, demoPaid]

theorem demoRun_eval : runOps Store.empty demoOps "L1" = some demoPartPaid := by
  show runOps (runStep Store.empty (Op.applyLoan "L1" "Jane Doe" 5000 12 (11 / 2)))
    [Op.decideLoan "L1" "APPROVED", Op.repayLoan "L1" 2000] "L1" = some demoPartPaid
  rw [runStep_eq_of_ok Store.empty (Op.applyLoan "L1" "Jane Doe" 5000 12 (11 / 2))
    demoStore1 applyDemo_eval]
  show runOps (runStep demoStore1 (Op.decideLoan "L1" "APPROVED"))
    [Op.repayLoan "L1" 2000] "L1" = some demoPartPaid
  rw [runStep_eq_of_ok demoStore1 (Op.decideLoan "L1" "APPROVED")
    demoStore2 approveDemo_eval]
  show runStep demoStore2 (Op.repayLoan "L1" 2000) "L1" = some demoPartPaid
  rw [runStep_eq_of_ok demoStore2 (Op.repayLoan "L1" 2000)
    (putState demoStore2 "L1" demoPartPaid) repayDemo_eval, putState_same]

theorem applyForLoan_ok (st : Store) (lid nm : String) (amt : ℚ) (tm : Int)
    (ir : ℚ) (st1 : Store) (h : ApplyForLoan st lid nm amt tm ir = .ok st1) :
    lid ≠ "" ∧ nm ≠ "" ∧ 0 < amt ∧ 0 < tm ∧ 0 ≤ ir ∧ st lid = none ∧
    st1 = putState st lid
      { LoanID := lid
        ApplicantName := nm
        LoanAmount := amt
        TermMonths := tm
        InterestRate := ir
        Outstanding := amt
        Status := "APPLIED"
        Repayments := [] } := by
  unfold ApplyForLoan at h
  split at h
  · exact Except.noConfusion h
  next h1 =>
    split at h
    · exact Except.noConfusion h
    next h2 =>
      split at h
      · exact Except.noConfusion h
      next h3 =>
        split at h
        · exact Except.noConfusion h
        next h4 =>
          split at h
          · exact Except.noConfusion h
          next h5 =>
            split at h
            · exact Except.noConfusion h
            next hnone =>
              cases h
              exact ⟨h1, h2, not_le.mp h3, not_le.mp h4, not_lt.mp h5, hnone, rfl⟩

theorem approveLoan_ok (st : Store) (lid s : String) (st1 : Store)
    (h : ApproveLoan st lid s = .ok st1) :
    (s = "APPROVED" ∨ s = "REJECTED") ∧
    ∃ loan, st lid = some loan ∧ loan.Status = "APPLIED" ∧
      st1 = putState st lid { loan with Status := s } := by
  unfold ApproveLoan at h
  split at h
  · exact Except.noConfusion h
  next h1 =>
    split at h
    · exact Except.noConfusion h
    next loan heq =>
      split at h
      · exact Except.noConfusion h
      next h2 =>
        cases h
        refine ⟨?_, loan, heq, not_ne_iff.mp h2, rfl⟩
        by_cases hA : s = "APPROVED"
        · exact Or.inl hA
        · refine Or.inr ?_
          by_contra hR
          exact h1 ⟨hA, hR⟩

theorem makeRepayment_ok (st : Store) (lid : String) (amt : ℚ) (st1 : Store)
    (h : MakeRepayment st lid amt = .ok st1) :
    0 < amt ∧
    ∃ loan, st lid = some loan ∧ loan.Status = "APPROVED" ∧
      amt ≤ loan.Outstanding ∧
      st1 = putState st lid
        (if loan.Outstanding - amt ≤ 0 then
          { loan with
              Outstanding := loan.Outstanding - amt
              Repayments := loan.Repayments ++ [amt]
              Status := "PAID" }
        else
          { loan with
              Outstanding := loan.Outstanding - amt
              Repayments := loan.Repayments ++ [amt] }) := by
  unfold MakeRepayment at h
  split at h
  · exact Except.noConfusion h
  next h1 =>
    split at h
    · exact Except.noConfusion h
    next loan heq =>
      split at h
      · exact Except.noConfusion h
      next h2 =>
        split at h
        · exact Except.noConfusion h
        next h3 =>
          cases h
          exact ⟨not_le.mp h1, loan, heq, not_ne_iff.mp h2, not_lt.mp h3, rfl⟩

theorem loanInv_new (lid nm : String) (amt : ℚ) (tm : Int) (ir : ℚ)
    (hamt : 0 < amt) :
    LoanInv
      { LoanID := lid
        ApplicantName := nm
        LoanAmount := amt
        TermMonths := tm
        InterestRate := ir
        Outstanding := amt
        Status := "APPLIED"
        Repayments := [] } := by
  refine ⟨by simp, le_of_lt hamt, ?_⟩
  constructor
  · intro h0
    exact absurd h0 (ne_of_gt hamt)
  · intro hs
    have hne : ("APPLIED" : String) ≠ "PAID" := by decide
    exact absurd hs hne

theorem storeInv_runStep (st : Store) (op : Op) (hinv : StoreInv st) :
    StoreInv (runStep st op) := by
  unfold runStep
  cases hop : runOp st op with
  | error e => exact hinv
  | ok st1 =>
    show StoreInv st1
    cases op with
    | applyLoan lid nm amt tm ir =>
      obtain ⟨h1, h2, hamt, htm, hir, hnone, rfl⟩ :=
        applyForLoan_ok st lid nm amt tm ir st1 hop
      intro k loan hk
      by_cases hkl : k = lid
      · subst hkl
        rw [putState_same] at hk
        injection hk with hk
        subst hk
        exact loanInv_new k nm amt tm ir hamt
      · rw [putState_other st lid k _ hkl] at hk
        exact hinv k loan hk
    | decideLoan lid s =>
      obtain ⟨hs, loan0, heq, hstat, rfl⟩ := approveLoan_ok st lid s st1 hop
      intro k loan hk
      by_cases hkl : k = lid
      · subst hkl
        rw [putState_same] at hk
        injection hk with hk
        subst hk
        obtain ⟨hsum, hnn, hiff⟩ := hinv k loan0 heq
        refine ⟨hsum, hnn, ?_⟩
        have hne0 : loan0.Outstanding ≠ 0 := by
          intro h0
          have hp := hiff.mp h0
          rw [hstat] at hp
          exact absurd hp (by decide)
        have hsp : s ≠ "PAID" := by
          rcases hs with rfl | rfl <;> decide
        constructor
        · intro h0
          exact absurd h0 hne0
        · intro hp
          exact absurd hp hsp
      · rw [putState_other st lid k _ hkl] at hk
        exact hinv k loan hk
    | repayLoan lid amt =>
      obtain ⟨hamt, loan0, heq, hstat, hle, rfl⟩ :=
        makeRepayment_ok st lid amt st1 hop
      intro k loan hk
      by_cases hkl : k = lid
      · subst hkl
        rw [putState_same] at hk
        injection hk with hk
        subst hk
        obtain ⟨hsum, hnn, hiff⟩ := hinv k loan0 heq
        have hsum1 : (loan0.Repayments ++ [amt]).sum = loan0.Repayments.sum + amt := by
          simp
        have hnn1 : (0 : ℚ) ≤ loan0.Outstanding - amt := sub_nonneg.mpr hle
        by_cases hc : loan0.Outstanding - amt ≤ 0
        · rw [if_pos hc]
          refine ⟨?_, hnn1, ?_⟩
          · show (loan0.Repayments ++ [amt]).sum + (loan0.Outstanding - amt) =
              loan0.LoanAmount
            rw [hsum1]
            linarith [hsum]
          · constructor
            · intro _
              rfl
            · intro _
              exact le_antisymm hc hnn1
        · rw [if_neg hc]
          refine ⟨?_, hnn1, ?_⟩
          · show (loan0.Repayments ++ [amt]).sum + (loan0.Outstanding - amt) =
              loan0.LoanAmount
            rw [hsum1]
            linarith [hsum]
          · constructor
            · intro h0
              exact absurd h0 (sub_ne_zero_of_ne (by
                intro heq0
                exact hc (by rw [heq0]; simp)))
            · intro hp
              show loan0.Outstanding - amt = 0
              rw [hstat] at hp
              exact absurd hp (by decide)
      · rw [putState_other st lid k _ hkl] at hk
        exact hinv k loan hk

theorem storeInv_runOps (ops : List Op) :
    ∀ st, StoreInv st → StoreInv (runOps st ops) := by
  induction ops with
  | nil => intro st h; exact h
  | cons op ops ih =>
    intro st h
    exact ih (runStep st op) (storeInv_runStep st op h)

/-- C3: on every store reachable from the empty store, `outstanding = 0` iff
`status = "PAID"`; a newly applied record has positive outstanding and
status `"APPLIED"`; and the only single successful operation that moves a
stored record to `"PAID"` is a repayment that drives its outstanding to 0. -/
theorem paid_iff_zero_outstanding :
    (∀ ops k loan, runOps Store.empty ops k = some loan →
        (loan.Outstanding = 0 ↔ loan.Status = "PAID")) ∧
    (∀ st lid nm amt tm ir st1,
        ApplyForLoan st lid nm amt tm ir = Except.ok st1 →
        ∃ loan, st1 lid = some loan ∧ 0 < loan.Outstanding ∧
          loan.Status = "APPLIED") ∧
    (∀ st op st1 k loan loan1, runOp st op = Except.ok st1 →
        st k = some loan → st1 k = some loan1 →
        loan.Status ≠ "PAID" → loan1.Status = "PAID" →
        ∃ amt, op = Op.repayLoan k amt ∧ loan1.Outstanding = 0) := by
  refine ⟨?_, ?_, ?_⟩
  · intro ops k loan h
    exact (storeInv_runOps ops Store.empty storeInv_empty k loan h).2.2
  · intro st lid nm amt tm ir st1 h
    obtain ⟨h1, h2, hamt, htm, hir, hnone, rfl⟩ :=
      applyForLoan_ok st lid nm amt tm ir st1 h
    exact ⟨_, putState_same st lid _, hamt, rfl⟩
  · intro st op st1 k loan loan1 hop hk hk1 hnot hpaid
    cases op with
    | applyLoan lid nm amt tm ir =>
      obtain ⟨h1, h2, hamt, htm, hir, hnone, rfl⟩ :=
        applyForLoan_ok st lid nm amt tm ir st1 hop
      by_cases hkl : k = lid
      · subst hkl
        rw [hnone] at hk
        exact Option.noConfusion hk
      · rw [putState_other st lid k _ hkl, hk] at hk1
        injection hk1 with hk1
        subst hk1
        exact absurd hpaid hnot
    | decideLoan lid s =>
      obtain ⟨hs, loan0, heq, hstat, rfl⟩ := approveLoan_ok st lid s st1 hop
      by_cases hkl : k = lid
      · subst hkl
        rw [putState_same] at hk1
        injection hk1 with hk1
        subst hk1
        rcases hs with rfl | rfl
        · have hne : ("APPROVED" : String) ≠ "PAID" := by decide
          exact absurd hpaid hne
        · have hne : ("REJECTED" : String) ≠ "PAID" := by decide
          exact absurd hpaid hne
      · rw [putState_other st lid k _ hkl, hk] at hk1
        injection hk1 with hk1
        subst hk1
        exact absurd hpaid hnot
    | repayLoan lid amt =>
      obtain ⟨hamt, loan0, heq, hstat, hle, rfl⟩ :=
        makeRepayment_ok st lid amt st1 hop
      by_cases hkl : k = lid
      · subst hkl
        rw [putState_same] at hk1
        injection hk1 with hk1
        by_cases hc : loan0.Outstanding - amt ≤ 0
        · rw [if_pos hc] at hk1
          subst hk1
          exact ⟨amt, rfl, le_antisymm hc (sub_nonneg.mpr hle)⟩
        · rw [if_neg hc] at hk1
          subst hk1
          have hpaid1 : loan0.Status = "PAID" := hpaid
          rw [hstat] at hpaid1
          exact absurd hpaid1 (by decide)
      · rw [putState_other st lid k _ hkl, hk] at hk1
        injection hk1 with hk1
        subst hk1
        exact absurd hpaid hnot

theorem paid_iff_zero_outstanding_witness :
    (demoPartPaid.Outstanding = 0 ↔ demoPartPaid.Status = "PAID") ∧
    (∃ loan, demoStore1 "L1" = some loan ∧ 0 < loan.Outstanding ∧
      loan.Status = "APPLIED") ∧
    (∃ amt, Op.repayLoan "L1" (5000 : ℚ) = Op.repayLoan "L1" amt ∧
      demoPaid.Outstanding = 0) :=
  ⟨paid_iff_zero_outstanding.1 demoOps "L1" demoPartPaid demoRun_eval,
   paid_iff_zero_outstanding.2.1 Store.empty "L1" "Jane Doe" 5000 12 (11 / 2)
     demoStore1 applyDemo_eval,
   paid_iff_zero_outstanding.2.2 demoStore2 (Op.repayLoan "L1" 5000)
     (putState demoStore2 "L1" demoPaid) "L1" demoApproved demoPaid
     repayFullDemo_eval (by simp [demoStore2, putState_same])
     (putState_same _ _ _) (by simp [demoApproved, demoApplied]) rfl⟩

/-- C5 counterexample: with a record already stored under `"L1"`, an apply
on `"L1"` whose applicant name is empty fails with `InvalidArgument`, not
`AlreadyExists` — argument validation runs before the duplicate check, so
the claim does not hold for every apply on an occupied key. -/
theorem applyForLoan_duplicate_counterexample :
    demoStore1 "L1" = some demoApplied ∧
    ApplyForLoan demoStore1 "L1" "" 1000 12 0 =
      .error (.InvalidArgument "applicant name cannot be empty") ∧
    ApplyForLoan demoStore1 "L1" "" 1000 12 0 ≠
      .error LoanErr.AlreadyExists := by
  have he : ApplyForLoan demoStore1 "L1" "" 1000 12 0 =
      .error (.InvalidArgument "applicant name cannot be empty") := rfl
  exact ⟨putState_same _ _ _, he, by simp [he]⟩

/-- C5 (amended): for every key already holding a record, an apply on that
key whose arguments pass validation fails with `AlreadyExists` and leaves
the store unchanged. -/
theorem applyForLoan_duplicate (st : Store) (lid nm : String) (amt : ℚ)
    (tm : Int) (ir : ℚ) (hlid : lid ≠ "") (hnm : nm ≠ "")
    (hamt : (0 : ℚ) < amt) (htm : (0 : Int) < tm) (hir : (0 : ℚ) ≤ ir)
    (loan : Loan) (hex : st lid = some loan) :
    ApplyForLoan st lid nm amt tm ir = .error LoanErr.AlreadyExists ∧
    runStep st (Op.applyLoan lid nm amt tm ir) = st := by
  have he : ApplyForLoan st lid nm amt tm ir = .error .AlreadyExists := by
    simp only [ApplyForLoan, if_neg hlid, if_neg hnm, if_neg (not_le.mpr hamt),
      if_neg (not_le.mpr htm), if_neg (not_lt.mpr hir), hex]
  exact ⟨he, runStep_eq_of_error _ _ _ he⟩

theorem applyForLoan_duplicate_witness :
    ApplyForLoan demoStore1 "L1" "Bob" 1 1 0 = .error LoanErr.AlreadyExists ∧
    runStep demoStore1 (Op.applyLoan "L1" "Bob" 1 1 0) = demoStore1 :=
  applyForLoan_duplicate demoStore1 "L1" "Bob" 1 1 0 (by decide) (by decide)
    (by norm_num) (by decide) (by norm_num) demoApplied (putState_same _ _ _)

/-- C6: for a decision in APPROVED/REJECTED, deciding a missing key fails
with `NotFound`; deciding a record not in `"APPLIED"` status fails with
`InvalidState` and leaves the store unchanged; deciding an `"APPLIED"`
record succeeds, setting only the status to the decision. -/
theorem approveLoan_spec (st : Store) (lid decision : String)
    (hdec : decision = "APPROVED" ∨ decision = "REJECTED") :
    (st lid = none → ApproveLoan st lid decision = .error LoanErr.NotFound) ∧
    (∀ loan, st lid = some loan → loan.Status ≠ "APPLIED" →
      ApproveLoan st lid decision = .error LoanErr.InvalidState ∧
      runStep st (Op.decideLoan lid decision) = st) ∧
    (∀ loan, st lid = some loan → loan.Status = "APPLIED" →
      ApproveLoan st lid decision =
        .ok (putState st lid { loan with Status := decision })) := by
  have hcond : ¬(decision ≠ "APPROVED" ∧ decision ≠ "REJECTED") := by
    rcases hdec with rfl | rfl <;> simp
  refine ⟨?_, ?_, ?_⟩
  · intro hnone
    simp only [ApproveLoan, if_neg hcond, hnone]
  · intro loan hsome hstat
    have he : ApproveLoan st lid decision = .error .InvalidState := by
      simp only [ApproveLoan, if_neg hcond, hsome, if_pos hstat]
    exact ⟨he, runStep_eq_of_error _ _ _ he⟩
  · intro loan hsome hstat
    have hnot : ¬(loan.Status ≠ "APPLIED") := by simp [hstat]
    simp only [ApproveLoan, if_neg hcond, hsome, if_neg hnot]

theorem approveLoan_spec_witness :
    (ApproveLoan Store.empty "LX" "APPROVED" = .error LoanErr.NotFound) ∧
    (ApproveLoan demoStore2 "L1" "REJECTED" = .error LoanErr.InvalidState ∧
      runStep demoStore2 (Op.decideLoan "L1" "REJECTED") = demoStore2) ∧
    (ApproveLoan demoStore1 "L1" "APPROVED" =
      .ok (putState demoStore1 "L1" { demoApplied with Status := "APPROVED" })) :=
  ⟨(approveLoan_spec Store.empty "LX" "APPROVED" (Or.inl rfl)).1 rfl,
   (approveLoan_spec demoStore2 "L1" "REJECTED" (Or.inr rfl)).2.1 demoApproved
     (putState_same _ _ _) (by decide),
   (approveLoan_spec demoStore1 "L1" "APPROVED" (Or.inl rfl)).2.2 demoApplied
     (putState_same _ _ _) rfl⟩

/-- C7: repay fails with `InvalidArgument` when the amount is non-positive,
`NotFound` when no record exists, `InvalidState` when the record is not
`"APPROVED"`, and `ExceedsBalance` when the amount exceeds the outstanding
balance; in every failure case the store is unchanged. -/
theorem makeRepayment_failures (st : Store) (lid : String) (amt : ℚ) :
    (amt ≤ 0 →
      MakeRepayment st lid amt =
        .error (.InvalidArgument "repayment amount must be positive") ∧
      runStep st (Op.repayLoan lid amt) = st) ∧
    (0 < amt → st lid = none →
      MakeRepayment st lid amt = .error LoanErr.NotFound ∧
      runStep st (Op.repayLoan lid amt) = st) ∧
    (∀ loan, 0 < amt → st lid = some loan → loan.Status ≠ "APPROVED" →
      MakeRepayment st lid amt = .error LoanErr.InvalidState ∧
      runStep st (Op.repayLoan lid amt) = st) ∧
    (∀ loan, 0 < amt → st lid = some loan → loan.Status = "APPROVED" →
      loan.Outstanding < amt →
      MakeRepayment st lid amt = .error LoanErr.ExceedsBalance ∧
      runStep st (Op.repayLoan lid amt) = st) := by
  refine ⟨?_, ?_, ?_, ?_⟩
  · intro hle
    have he : MakeRepayment st lid amt =
        .error (.InvalidArgument "repayment amount must be positive") := by
      simp only [MakeRepayment, if_pos hle]
    exact ⟨he, runStep_eq_of_error _ _ _ he⟩
  · intro hpos hnone
    have he : MakeRepayment st lid amt = .error .NotFound := by
      simp only [MakeRepayment, if_neg (not_le.mpr hpos), hnone]
    exact ⟨he, runStep_eq_of_error _ _ _ he⟩
  · intro loan hpos hsome hstat
    have he : MakeRepayment st lid amt = .error .InvalidState := by
      simp only [MakeRepayment, if_neg (not_le.mpr hpos), hsome, if_pos hstat]
    exact ⟨he, runStep_eq_of_error _ _ _ he⟩
  · intro loan hpos hsome hstat hgt
    have hnot : ¬(loan.Status ≠ "APPROVED") := by simp [hstat]
    have he : MakeRepayment st lid amt = .error .ExceedsBalance := by
      simp only [MakeRepayment, if_neg (not_le.mpr hpos), hsome, if_neg hnot,
        if_pos hgt]
    exact ⟨he, runStep_eq_of_error _ _ _ he⟩

theorem makeRepayment_failures_witness :
    (MakeRepayment demoStore2 "L1" 0 =
        .error (.InvalidArgument "repayment amount must be positive") ∧
      runStep demoStore2 (Op.repayLoan "L1" 0) = demoStore2) ∧
    (MakeRepayment Store.empty "LX" 100 = .error LoanErr.NotFound ∧
      runStep Store.empty (Op.repayLoan "LX" 100) = Store.empty) ∧
    (MakeRepayment demoStore1 "L1" 100 = .error LoanErr.InvalidState ∧
      runStep demoStore1 (Op.repayLoan "L1" 100) = demoStore1) ∧
    (MakeRepayment demoStore2 "L1" 6000 = .error LoanErr.ExceedsBalance ∧
      runStep demoStore2 (Op.repayLoan "L1" 6000) = demoStore2) :=
  ⟨(makeRepayment_failures demoStore2 "L1" 0).1 le_rfl,
   (makeRepayment_failures Store.empty "LX" 100).2.1 (by norm_num) rfl,
   (makeRepayment_failures demoStore1 "L1" 100).2.2.1 demoApplied
     (by norm_num) (putState_same _ _ _) (by decide),
   (makeRepayment_failures demoStore2 "L1" 6000).2.2.2 demoApproved
     (by norm_num) (putState_same _ _ _) rfl
     (by norm_num [demoApproved, demoApplied])⟩

/-- C8: query returns the currently stored record when one exists and fails
with `NotFound` otherwise; it is read-only — mirroring the source, which
performs a single `GetState` and no `PutState`, the embedding returns no
store and so cannot write. -/
theorem checkLoanBalance_spec (st : Store) (lid : String) :
    (∀ loan, st lid = some loan → CheckLoanBalance st lid = .ok loan) ∧
    (st lid = none → CheckLoanBalance st lid = .error LoanErr.NotFound) := by
  constructor
  · intro loan h
    simp only [CheckLoanBalance, h]
  · intro h
    simp only [CheckLoanBalance, h]

theorem checkLoanBalance_spec_witness :
    CheckLoanBalance demoStore1 "L1" = .ok demoApplied ∧
    CheckLoanBalance Store.empty "LX" = .error LoanErr.NotFound :=
  ⟨(checkLoanBalance_spec demoStore1 "L1").1 demoApplied (putState_same _ _ _),
   (checkLoanBalance_spec Store.empty "LX").2 rfl⟩

/-- C10: the decision string is validated before the store is consulted:
for every store — in particular one with no record under the id — an
invalid decision yields the invalid-decision `InvalidArgument` error, never
`NotFound`. -/
theorem approveLoan_validates_decision_first (st : Store)
    (lid decision : String) (h1 : decision ≠ "APPROVED")
    (h2 : decision ≠ "REJECTED") :
    ApproveLoan st lid decision =
      .error (.InvalidArgument "invalid status, must be APPROVED or REJECTED") ∧
    ApproveLoan st lid decision ≠ .error LoanErr.NotFound := by
  have he : ApproveLoan st lid decision =
      .error (.InvalidArgument "invalid status, must be APPROVED or REJECTED") := by
    simp only [ApproveLoan, if_pos (And.intro h1 h2)]
  exact ⟨he, by simp [he]⟩

theorem approveLoan_validates_decision_first_witness :
    ApproveLoan Store.empty "L1" "MAYBE" =
      .error (.InvalidArgument "invalid status, must be APPROVED or REJECTED") ∧
    ApproveLoan Store.empty "L1" "MAYBE" ≠ .error LoanErr.NotFound :=
  approveLoan_validates_decision_first Store.empty "L1" "MAYBE"
    (by decide) (by decide)

theorem execTx_committed_aux (envSt : Nat → Store) (conflict : Nat → Bool)
    (op : Op) :
    ∀ n i st1, execTx envSt conflict op i n = .committed st1 →
      ∃ j, i ≤ j ∧ j < i + n ∧ conflict j = false ∧
        runOp (envSt j) op = Except.ok st1 ∧
        ∀ m, i ≤ m → m < j → conflict m = true := by
  intro n
  induction n with
  | zero =>
    intro i st1 h
    exact ExecResult.noConfusion h
  | succ n ih =>
    intro i st1 h
    unfold execTx at h
    cases hop : runOp (envSt i) op with
    | error e =>
      simp only [hop] at h
      exact ExecResult.noConfusion h
    | ok st2 =>
      simp only [hop] at h
      by_cases hc : conflict i = true
      · rw [if_pos hc] at h
        obtain ⟨j, hij, hlt, hcf, hrun, hall⟩ := ih (i + 1) st1 h
        refine ⟨j, by omega, by omega, hcf, hrun, ?_⟩
        intro m him hmj
        by_cases hmi : m = i
        · subst hmi
          exact hc
        · exact hall m (by omega) hmj
      · rw [if_neg hc] at h
        injection h with h
        subst h
        refine ⟨i, le_rfl, by omega, ?_, hop, ?_⟩
        · simp at hc
          exact hc
        · intro m him hmi
          omega

theorem execTx_contention_aux (envSt : Nat → Store) (conflict : Nat → Bool)
    (op : Op) :
    ∀ n i, (∀ j, i ≤ j → j < i + n → conflict j = true ∧
        ∃ st2, runOp (envSt j) op = Except.ok st2) →
      execTx envSt conflict op i n = .contention := by
  intro n
  induction n with
  | zero =>
    intro i h
    rfl
  | succ n ih =>
    intro i h
    obtain ⟨hc, st2, hok⟩ := h i le_rfl (by omega)
    unfold execTx
    simp only [hok, if_pos hc]
    exact ih (i + 1) (fun j h1 h2 => h j (by omega) (by omega))

/-- C9: the executor's write commits only from an attempt whose read was not
invalidated by a concurrent writer (`conflict j = false`, the conditional
write on the version observed at that attempt's read), and the committed
store is computed by the lifecycle operation from that attempt's freshly
read state — a concurrent update is never overwritten from a stale read;
when every attempt within the bounded budget conflicts, the executor
reports contention. -/
theorem execTx_spec (envSt : Nat → Store) (conflict : Nat → Bool) (op : Op)
    (maxAttempts : Nat) :
    (∀ st1, execTx envSt conflict op 0 maxAttempts = .committed st1 →
      ∃ j, j < maxAttempts ∧ conflict j = false ∧
        runOp (envSt j) op = Except.ok st1 ∧
        ∀ m, m < j → conflict m = true) ∧
    ((∀ j, j < maxAttempts → conflict j = true ∧
        ∃ st2, runOp (envSt j) op = Except.ok st2) →
      execTx envSt conflict op 0 maxAttempts = .contention) := by
  constructor
  · intro st1 h
    obtain ⟨j, _, hlt, hcf, hrun, hall⟩ :=
      execTx_committed_aux envSt conflict op maxAttempts 0 st1 h
    exact ⟨j, by omega, hcf, hrun, fun m hm => hall m (Nat.zero_le m) hm⟩
  · intro h
    exact execTx_contention_aux envSt conflict op maxAttempts 0
      (fun j h1 h2 => h j (by omega))

theorem execTx_spec_witness :
    execTx (fun _ => Store.empty) (fun _ => true)
      (Op.applyLoan "L1" "Jane Doe" 5000 12 (11 / 2)) 0 2 =
      ExecResult.contention :=
  (execTx_spec (fun _ => Store.empty) (fun _ => true)
      (Op.applyLoan "L1" "Jane Doe" 5000 12 (11 / 2)) 2).2
    (fun _ _ => ⟨rfl, demoStore1, applyDemo_eval⟩)
